import Mathlib

/-!
Verification development for the vapi-bridge repository.

The development shallowly embeds:
* the front-end `ResponseRenderer` component's `detectType` classification
  (`vapi_agent_forge` front end, `ResponseRenderer.tsx` variant with the
  `type` prop);
* the `POST /api/agents/test` route handler's YAML pre-validation and tool
  counting (`src/app/api/agents/test/route.ts`);
* the dispatch/registry/extractor/job core described by the design document
  (the Python backend implementing it is not part of the source tree, so
  those definitions are modelled from the specification text and are marked
  as such in their doc comments).
-/

set_option maxHeartbeats 1000000

/-! ## JavaScript-like values

The front-end components receive arbitrary JavaScript data.  We embed the
JSON-like fragment relevant to rendered response data: `null`, `undefined`,
booleans, numbers, strings, arrays and plain objects. -/

/-- JavaScript value as seen by the front-end rendering components. -/
inductive JSValue : Type where
  | null : JSValue
  | undef : JSValue
  | bool : Bool → JSValue
  | num : Int → JSValue
  | str : String → JSValue
  | arr : List JSValue → JSValue
  | obj : List (String × JSValue) → JSValue

/-- Result of the JavaScript `typeof` operator on a `JSValue`
(`typeof null` is `"object"`, arrays are `"object"` too). -/
def JSValue.jsTypeof : JSValue → String
  | .null => "object"
  | .undef => "undefined"
  | .bool _ => "boolean"
  | .num _ => "number"
  | .str _ => "string"
  | .arr _ => "object"
  | .obj _ => "object"

/-- JavaScript `Array.isArray`. -/
def JSValue.isArray : JSValue → Bool
  | .arr _ => true
  | _ => false

/-- JavaScript strict inequality with `null` restricted to the test
`data !== null` used by the component. -/
def JSValue.isNotNull : JSValue → Bool
  | .null => false
  | _ => true

/-! ## ResponseRenderer (`unnamed/part_003`) -/

/-- Render type selected by the component. -/
inductive RenderType : Type where
  | json : RenderType
  | table : RenderType
  | text : RenderType
deriving DecidableEq

/-- Prop value for the `type` prop of `ResponseRenderer`
(`'json' | 'table' | 'text' | 'auto'`, default `'auto'`). -/
inductive RenderTypeProp : Type where
  | json : RenderTypeProp
  | table : RenderTypeProp
  | text : RenderTypeProp
  | auto : RenderTypeProp
deriving DecidableEq

/-- Embedding of `detectType` from `ResponseRenderer` (`unnamed/part_003`,
lines 16-20): `if (Array.isArray(data)) return 'table'; if (typeof data ===
'object' && data !== null) return 'json'; return 'text';`. -/
def detectType (data : JSValue) : RenderType :=
  if data.isArray then .table
  else if data.jsTypeof = "object" ∧ data.isNotNull then .json
  else .text

/-- Embedding of `renderType` (`unnamed/part_003`, line 22):
`type === 'auto' ? detectType(data) : type`. -/
def renderTypeOf (ty : RenderTypeProp) (data : JSValue) : RenderType :=
  match ty with
  | .auto => detectType data
  | .json => .json
  | .table => .table
  | .text => .text

/-! ## POST /api/agents/test (`src/app/api/agents/test/route.ts`) -/

/-- Boolean prefix test on character lists (JavaScript `startsWith`, and
the anchored part of regex matching). -/
def startsWithChars : List Char → List Char → Bool
  | [], _ => true
  | _ :: _, [] => false
  | a :: as, b :: bs => if a = b then startsWithChars as bs else false

/-- JavaScript `string.split(sep)` for a one-character separator, on the
character list of the string: `''` splits to `['']`, and every separator
starts a new (possibly empty) piece. -/
def splitOnChar (sep : Char) : List Char → List (List Char)
  | [] => [[]]
  | c :: rest =>
    match splitOnChar sep rest with
    | [] => [[]]
    | cur :: parts => if c = sep then [] :: cur :: parts else (c :: cur) :: parts

/-- Whitespace as JavaScript `trim` treats it (restricted to the ASCII
whitespace characters). -/
def jsWhitespace (c : Char) : Bool :=
  c = ' ' || c = '\t' || c = '\n' || c = '\r' || c = '\x0b' || c = '\x0c'

/-- JavaScript `string.trim()` on a character list. -/
def trimChars (l : List Char) : List Char :=
  ((l.dropWhile jsWhitespace).reverse.dropWhile jsWhitespace).reverse

/-- Number of occurrences of a character in a line. -/
def countChar (c : Char) (s : List Char) : Nat :=
  (s.filter (fun d => d = c)).length

/-- Test of the tab-indentation regex of route.ts line 26 (matches a line
beginning with a tab character). -/
def tabStart (l : List Char) : Bool := startsWithChars "\t".toList l

/-- Oddness of the number of single-quote characters of a line
(route.ts line 34). -/
def oddSingle (l : List Char) : Bool := countChar '\'' l % 2 != 0

/-- Oddness of the number of double-quote characters of a line
(route.ts line 37). -/
def oddDouble (l : List Char) : Bool := countChar '"' l % 2 != 0

/-- Validation messages produced for one 0-based line index by the loop
body of `validateYamlStructure` (route.ts lines 21-40): blank lines (after
`trim`) are skipped by the `continue`; otherwise the tab-indentation check
and the two quote-parity checks each may push a message. -/
def lineErrors (i : Nat) (line : List Char) : List String :=
  if trimChars line = [] then []
  else
    (if tabStart line then
        ["Line " ++ toString (i + 1) ++ ": Use spaces instead of tabs for indentation"]
      else []) ++
    (if oddSingle line then
        ["Line " ++ toString (i + 1) ++ ": Unmatched single quote"]
      else []) ++
    (if oddDouble line then
        ["Line " ++ toString (i + 1) ++ ": Unmatched double quote"]
      else [])

/-- Loop of `validateYamlStructure` over the lines, carrying the running
line index. -/
def validateLines (i : Nat) : List (List Char) → List String
  | [] => []
  | l :: rest => lineErrors i l ++ validateLines (i + 1) rest

/-- Embedding of `validateYamlStructure` (route.ts lines 16-43): the YAML
text is split on newlines and every line is checked in order. -/
def validateYamlStructure (yamlString : String) : List String :=
  validateLines 0 (splitOnChar '\n' yamlString.toList)

/-- Line predicate the analysed claim states for the validation-error
branch: the line begins with a tab, or has an odd number of single or of
double quotes. -/
def claimedErrorLine (l : List Char) : Bool :=
  tabStart l || oddSingle l || oddDouble l

/-- Line predicate the route actually implements: as `claimedErrorLine`,
but only on lines whose trimmed content is non-empty (blank lines are
skipped by the `continue`). -/
def actualErrorLine (l : List Char) : Bool :=
  (trimChars l != []) && claimedErrorLine l

/-- Count of left-to-right non-overlapping matches of a non-empty pattern,
as JavaScript global regex matching counts them: scan left to right, and on
a match resume after the matched characters.  The fuel argument bounds the
scan; it is instantiated with the length of the scanned list, which the
scan never exceeds. -/
def jsMatchCountAux (pat : List Char) : Nat → List Char → Nat
  | _, [] => 0
  | 0, _ => 0
  | fuel + 1, c :: rest =>
    if startsWithChars pat (c :: rest) then
      1 + jsMatchCountAux pat fuel (rest.drop (pat.length - 1))
    else
      jsMatchCountAux pat fuel rest

/-- Count of left-to-right non-overlapping global regex matches of a
pattern in a list, as JavaScript counts them. -/
def jsMatchCount (pat : List Char) (s : List Char) : Nat :=
  if pat = [] then 0 else jsMatchCountAux pat s.length s

/-- Embedding of the `toolCount` computation (route.ts line 108): the number
of global regex matches of the literal pattern "- name:" in the config. -/
def toolCount (config : String) : Nat :=
  jsMatchCount "- name:".toList config.toList

/-- Count of all positions at which a pattern occurs in a list (the plain
"number of occurrences of the substring anywhere" notion; it counts
overlapping occurrences too, unlike a global regex scan). -/
def occurrencesFrom (pat : List Char) : List Char → Nat
  | [] => 0
  | c :: rest => (if startsWithChars pat (c :: rest) then 1 else 0) + occurrencesFrom pat rest

/-- Outcome of the `POST /api/agents/test` handler, restricted to the parts
the analysed behaviour depends on: the 400 "Configuration is required"
branch, the 400 validation-error branch carrying the error list, and a
success branch carrying the computed `toolCount`. -/
inductive TestRouteResponse : Type where
  | requiredError : TestRouteResponse
  | validationError : List String → TestRouteResponse
  | ok : Nat → TestRouteResponse
deriving DecidableEq

/-- Embedding of the handler body of `POST` in route.ts: `!config` on a
string is true exactly for the empty string; then `validateYamlStructure`
decides between the 400 validation branch (`validationErrors.length > 0`)
and the success branch carrying `toolCount`. -/
def postAgentsTest (config : String) : TestRouteResponse :=
  if config = "" then .requiredError
  else
    let validationErrors := validateYamlStructure config
    if validationErrors.length > 0 then .validationError validationErrors
    else .ok (toolCount config)

/-- True exactly on the 400 validation-error branch. -/
def isValidationFailure : TestRouteResponse → Bool
  | .validationError _ => true
  | _ => false

/-! ## JSON values for the backend core

The backend dispatch core described by the design document (ServiceRegistry,
ToolCallDispatcher, ResponseExtractor, JobLifecycleTracker) has no
implementation under the source tree -- only its documentation and the
specification describe it.  The following definitions are therefore modelled
from the specification text. -/

/-- Modelled from the spec: JSON values exchanged with upstream services
(parsed response bodies, request body templates, tool parameters). -/
inductive Json : Type where
  | null : Json
  | bool : Bool → Json
  | num : Int → Json
  | str : String → Json
  | arr : List Json → Json
  | obj : List (String × Json) → Json

/-- Modelled from the spec: compact textual rendering of a JSON value, used
for the diagnostic snippet carried by an extraction failure. -/
def Json.render : Json → String
  | .null => "null"
  | .bool b => toString b
  | .num n => toString n
  | .str s => "\"" ++ s ++ "\""
  | .arr xs => "[" ++ String.intercalate "," (xs.attach.map (fun x => x.1.render)) ++ "]"
  | .obj fs =>
      "\x7b" ++
        String.intercalate "," (fs.attach.map (fun p => "\"" ++ p.1.1 ++ "\":" ++ p.1.2.render))
        ++ "\x7d"
decreasing_by
  · obtain ⟨v, hmem⟩ := x
    have h := List.sizeOf_lt_of_mem hmem
    simp only [Json.arr.sizeOf_spec]
    omega
  · obtain ⟨⟨k, v⟩, hmem⟩ := p
    have h := List.sizeOf_lt_of_mem hmem
    simp only [Prod.mk.sizeOf_spec] at h
    simp only [Json.obj.sizeOf_spec]
    omega

/-- Modelled from the spec: the JSON type name of a value, used to check a
parameter value against its declared schema type. -/
def Json.typeName : Json → String
  | .null => "null"
  | .bool _ => "boolean"
  | .num _ => "number"
  | .str _ => "string"
  | .arr _ => "array"
  | .obj _ => "object"

/-! ## ResponseExtractor (spec section 4.3; backend implementation missing
from the source tree) -/

/-- Modelled from the spec: a raw upstream HTTP response body.  A body is
either valid JSON (carried parsed) or arbitrary non-JSON text. -/
inductive Raw : Type where
  | json : Json → Raw
  | text : String → Raw

/-- Modelled from the spec: the raw text of a body, for diagnostics. -/
def Raw.renderRaw : Raw → String
  | .json j => j.render
  | .text s => s

/-- Modelled from the spec: truncated snippet of a raw response carried by
an `ExtractionError` for diagnostics. -/
def truncateSnippet (s : String) : String := s.take 100

/-- Modelled from the spec: extraction failure carrying a truncated snippet
of the raw response. -/
inductive ExtractionError : Type where
  | noUsableValue : String → ExtractionError

/-- Modelled from the spec: navigation of a dotted path through parsed
JSON; each path component is looked up as an object field. -/
def navigatePath : Json → List String → Option Json
  | j, [] => some j
  | .obj fs, k :: ks =>
    match fs.lookup k with
    | some v => navigatePath v ks
    | none => none
  | _, _ :: _ => none

/-- Modelled from the spec: a dotted `response_path` split into components. -/
def splitPath (p : String) : List String :=
  (splitOnChar '.' p.toList).map String.mk

/-- Modelled from the spec: the conventional-field probe of strategy 2 --
the fields `result`, `summary`, `content` are probed in that order on a
JSON object body and the first present field wins. -/
def probeConventional (fs : List (String × Json)) : Option Json :=
  match fs.lookup "result" with
  | some v => some v
  | none =>
    match fs.lookup "summary" with
    | some v => some v
    | none => fs.lookup "content"

/-- Modelled from the spec: extraction strategies 2-5, used when no
`response_path` applies: probe conventional fields on a JSON object, return
a bare JSON string/scalar directly, return a non-JSON body as raw text, and
otherwise fail with a truncated diagnostic snippet. -/
def extractNoPath (raw : Raw) : Except ExtractionError Json :=
  match raw with
  | .json (.obj fs) =>
    match probeConventional fs with
    | some v => Except.ok v
    | none => Except.error (.noUsableValue (truncateSnippet raw.renderRaw))
  | .json (.str s) => Except.ok (.str s)
  | .json (.num n) => Except.ok (.num n)
  | .json (.bool b) => Except.ok (.bool b)
  | .json .null => Except.ok .null
  | .json (.arr xs) => Except.error (.noUsableValue (truncateSnippet (Json.arr xs).render))
  | .text s => if s = "" then Except.error (.noUsableValue "") else Except.ok (.str s)

/-- Modelled from the spec: `extract(raw_response, extraction_spec)` of the
ResponseExtractor.  Strategies are tried in a fixed order, first success
wins: a given `response_path` is navigated first; on its failure or absence
the remaining strategies of `extractNoPath` apply. -/
def extract (raw : Raw) (response_path : Option String) : Except ExtractionError Json :=
  match response_path with
  | some p =>
    match raw with
    | .json j =>
      match navigatePath j (splitPath p) with
      | some v => Except.ok v
      | none => extractNoPath raw
    | .text _ => extractNoPath raw
  | none => extractNoPath raw

/-! ## ServiceRegistry (spec section 4.1; backend implementation missing
from the source tree) -/

/-- Modelled from the spec: a `TenantServiceConfig` row -- one logical
service registered for a tenant. -/
structure ServiceConfig : Type where
  service_name : String
  base_url : String
  health_path : String
  timeout : Nat
  required : Bool
deriving DecidableEq

/-- Modelled from the spec: configuration failures of the registry --
an unconfigured `service://` name, an unresolved `$\x7bVAR\x7d` placeholder,
or an unknown tool name. -/
inductive ConfigurationError : Type where
  | notConfigured : String → ConfigurationError
  | unresolvedPlaceholder : String → ConfigurationError
  | toolNotFound : String → ConfigurationError
deriving DecidableEq

/-- Modelled from the spec: the human-readable message of a configuration
error; an unconfigured service reports
`service not configured: <name>`. -/
def ConfigurationError.message : ConfigurationError → String
  | .notConfigured name => "service not configured: " ++ name
  | .unresolvedPlaceholder v => "unresolved placeholder: " ++ v
  | .toolNotFound t => "tool not found: " ++ t

/-- Modelled from the spec: a fully-qualified absolute URL, used verbatim
by resolution rule 1. -/
def isAbsoluteUrl (url : String) : Bool :=
  startsWithChars "https://".toList url.toList || startsWithChars "http://".toList url.toList

/-- Modelled from the spec: parse of a logical `service://<name>/<path>`
reference into the service name (up to the first slash) and the remaining
path (kept with its leading slash, so that concatenation to the base URL
yields the final URL). -/
def parseServiceRef (url : String) : Option (String × String) :=
  if startsWithChars "service://".toList url.toList then
    let rest := url.toList.drop 10
    some (String.mk (rest.takeWhile (fun c => c ≠ '/')),
          String.mk (rest.dropWhile (fun c => c ≠ '/')))
  else none

/-- Modelled from the spec: lookup of a service name among a tenant's
configured services. -/
def lookupService (services : List ServiceConfig) (name : String) : Option ServiceConfig :=
  services.find? (fun c => c.service_name == name)

/-- Modelled from the spec: scanner of the `$\x7bVAR\x7d` placeholder
substitution.  The fuel argument bounds the scan; it is instantiated with
the length of the scanned list, which the scan never exceeds. -/
def substEnvVarsAux (env : List (String × String)) :
    Nat → List Char → Except ConfigurationError (List Char)
  | _, [] => Except.ok []
  | 0, l => Except.ok l
  | fuel + 1, '$' :: '{' :: rest =>
    (match rest.dropWhile (fun c => c ≠ '}') with
     | '}' :: tail =>
       (match env.lookup (String.mk (rest.takeWhile (fun c => c ≠ '}'))) with
        | some v => (substEnvVarsAux env fuel tail).map (fun t => v.toList ++ t)
        | none =>
          Except.error (.unresolvedPlaceholder (String.mk (rest.takeWhile (fun c => c ≠ '}')))))
     | _ => Except.ok ('$' :: '{' :: rest))
  | fuel + 1, c :: rest => (substEnvVarsAux env fuel rest).map (fun t => c :: t)

/-- Modelled from the spec: substitution of `$\x7bVAR\x7d` placeholders from the
resolved environment/config map; an unresolved placeholder fails with a
`ConfigurationError`. -/
def substEnvVars (env : List (String × String)) (l : List Char) :
    Except ConfigurationError (List Char) :=
  substEnvVarsAux env l.length l

/-- Modelled from the spec: whether a URL contains a `$\x7bVAR\x7d`
placeholder (resolution rule 3 applies). -/
def hasEnvPlaceholder (url : String) : Bool :=
  decide (0 < jsMatchCount ['$', '{'] url.toList)

/-- Modelled from the spec: URL resolution of the ServiceRegistry
(`resolve`), precedence evaluated top to bottom, first match wins:
1. a fully-qualified URL is used verbatim;
2. a `service://name/path` reference is looked up among the tenant's
   configured services and the base URL is concatenated with the path,
   failing with `service not configured: <name>` when absent;
3. `$\x7bVAR\x7d` placeholders are substituted from the environment map;
4. otherwise the URL is a literal string. -/
def resolveUrl (services : List ServiceConfig) (env : List (String × String))
    (url : String) : Except ConfigurationError String :=
  if isAbsoluteUrl url then Except.ok url
  else
    match parseServiceRef url with
    | some (name, path) =>
      match lookupService services name with
      | some cfg => Except.ok (cfg.base_url ++ path)
      | none => Except.error (.notConfigured name)
    | none =>
      if hasEnvPlaceholder url then (substEnvVars env url.toList).map String.mk
      else Except.ok url

/-! ## ToolCallDispatcher (spec section 4.2; backend implementation missing
from the source tree) -/

/-- Modelled from the spec: one entry of a tool's parameter schema
(name, JSON type name, required flag). -/
structure ParamSpec : Type where
  name : String
  ty : String
  required : Bool
deriving DecidableEq

/-- Modelled from the spec: a `ToolDefinition` from a tenant's
configuration document. -/
structure ToolDefinition : Type where
  name : String
  parameters : List ParamSpec
  method : String
  url : String
  json_body : Option Json
  response_path : Option String

/-- Modelled from the spec: validation of dispatch parameters against the
tool's parameter schema; a missing required parameter or a value of the
wrong type each contribute an error message. -/
def validateParams (schema : List ParamSpec) (params : List (String × Json)) :
    List String :=
  (schema.map (fun ps =>
    match params.lookup ps.name with
    | none => if ps.required then ["missing required parameter: " ++ ps.name] else []
    | some v => if v.typeName ≠ ps.ty then ["wrong type for parameter: " ++ ps.name] else [])).flatten

/-- Modelled from the spec: the textual form a parameter value takes when
substituted into a URL or string template. -/
def renderParamValue : Json → String
  | .str s => s
  | v => v.render

/-- Modelled from the spec: substitution of `\x7bparam_name\x7d` placeholders in
a string template; placeholders without a matching parameter (such as
`\x7bresponse.*\x7d`) are left untouched for the post-call stage. -/
def substParamCharsAux (params : List (String × Json)) : Nat → List Char → List Char
  | _, [] => []
  | 0, l => l
  | fuel + 1, '{' :: rest =>
    (match rest.dropWhile (fun c => c ≠ '}') with
     | '}' :: tail =>
       (match params.lookup (String.mk (rest.takeWhile (fun c => c ≠ '}'))) with
        | some v => (renderParamValue v).toList ++ substParamCharsAux params fuel tail
        | none =>
          '{' :: (rest.takeWhile (fun c => c ≠ '}') ++ '}' :: substParamCharsAux params fuel tail))
     | _ => '{' :: rest)
  | fuel + 1, c :: rest => c :: substParamCharsAux params fuel rest

/-- Modelled from the spec: parameter substitution on a whole string. -/
def substParamsString (params : List (String × Json)) (s : String) : String :=
  String.mk (substParamCharsAux params s.toList.length s.toList)

/-- Modelled from the spec: recursive parameter substitution through the
nested objects/arrays of a JSON body template. -/
def substBody (params : List (String × Json)) : Json → Json
  | .str s => .str (substParamsString params s)
  | .arr xs => .arr (xs.attach.map (fun x => substBody params x.1))
  | .obj fs => .obj (fs.attach.map (fun p => (p.1.1, substBody params p.1.2)))
  | v => v
decreasing_by
  · obtain ⟨v, hmem⟩ := x
    have h := List.sizeOf_lt_of_mem hmem
    simp only [Json.arr.sizeOf_spec]
    omega
  · obtain ⟨⟨k, v⟩, hmem⟩ := p
    have h := List.sizeOf_lt_of_mem hmem
    simp only [Prod.mk.sizeOf_spec] at h
    simp only [Json.obj.sizeOf_spec]
    omega

/-- Modelled from the spec: an outbound HTTP request built by the
dispatcher. -/
structure HttpRequest : Type where
  method : String
  url : String
  body : Option Json

/-- Modelled from the spec: a received HTTP response (status and raw
body).  The transport returns `none` when no response was received at all
(timeout, connection refused, DNS failure). -/
structure HttpResponse : Type where
  status : Nat
  body : Raw

/-- Modelled from the spec: the normalized outcome of one dispatch. -/
inductive DispatchResult : Type where
  | ok : Json → DispatchResult
  | validationError : List String → DispatchResult
  | configurationError : ConfigurationError → DispatchResult
  | networkError : String → DispatchResult
  | upstreamError : String → Nat → DispatchResult

/-- Modelled from the spec: `dispatch(tenant_id, tool_name, parameters)` of
the ToolCallDispatcher, with the HTTP transport passed as an oracle.  The
returned list is the exact sequence of HTTP requests issued, so a caller
can observe that validation and configuration failures perform zero HTTP
calls.  Steps: look up the tool; validate parameters (failure returns
`validationError` with no call); resolve the URL (failure returns
`configurationError` with no call); build the request by parameter
substitution; execute it once; classify no-response as `networkError` and
non-2xx as `upstreamError`; otherwise extract the value, degrading an
extraction failure to the raw response text. -/
def dispatch (services : List ServiceConfig) (env : List (String × String))
    (tools : List ToolDefinition) (http : HttpRequest → Option HttpResponse)
    (tool_name : String) (params : List (String × Json)) :
    DispatchResult × List HttpRequest :=
  match tools.find? (fun t => t.name == tool_name) with
  | none => (.configurationError (.toolNotFound tool_name), [])
  | some tool =>
    let errs := validateParams tool.parameters params
    if errs.isEmpty then
      match resolveUrl services env tool.url with
      | Except.error e => (.configurationError e, [])
      | Except.ok resolved =>
        let req : HttpRequest :=
          ⟨tool.method, substParamsString params resolved,
            tool.json_body.map (substBody params)⟩
        match http req with
        | none => (.networkError tool.name, [req])
        | some resp =>
          if 200 ≤ resp.status ∧ resp.status < 300 then
            match extract resp.body tool.response_path with
            | Except.ok v => (.ok v, [req])
            | Except.error _ => (.ok (.str resp.body.renderRaw), [req])
          else (.upstreamError tool.name resp.status, [req])
    else (.validationError errs, [])

/-! ## JobLifecycleTracker (spec section 4.4; backend implementation missing
from the source tree) -/

/-- Modelled from the spec: job lifecycle states.  `created`, `running` and
`processing` are non-terminal; `completed` and `failed` are terminal. -/
inductive JobStatus : Type where
  | created : JobStatus
  | running : JobStatus
  | processing : JobStatus
  | completed : JobStatus
  | failed : JobStatus
deriving DecidableEq

/-- Modelled from the spec: the terminal states `completed` and `failed`. -/
def JobStatus.isTerminal : JobStatus → Bool
  | .completed => true
  | .failed => true
  | _ => false

/-- Modelled from the spec: position of a status along the one-directional
chain `created → running → processing → completed`, with `failed` a terminal
sibling of `completed`. -/
def JobStatus.rank : JobStatus → Nat
  | .created => 0
  | .running => 1
  | .processing => 2
  | .completed => 3
  | .failed => 3

/-- Modelled from the spec: `transition(job_id, new_status, ...)` restricted
to the status component.  A job already in a terminal state rejects every
transition as a no-op; otherwise the conditional per-job update of the
concurrency model only moves the status forward along the chain, so a
request that does not advance the status is a no-op as well. -/
def transition (cur new : JobStatus) : JobStatus :=
  if cur.isTerminal then cur
  else if cur.rank < new.rank then new
  else cur

/-- Modelled from the spec: a whole sequence of transition calls applied in
order to a starting status. -/
def runTransitions (init : JobStatus) (calls : List JobStatus) : JobStatus :=
  calls.foldl transition init

/-- Modelled from the spec: a `Job` row of the job store (`research_jobs`
table).  `input_data`, `result` and `error_message` are carried as stored
JSON text. -/
structure Job : Type where
  job_id : String
  request_type : String
  status : JobStatus
  input_data : String
  result : Option String
  error_message : Option String
  created_at : Nat
  updated_at : Nat
deriving DecidableEq

/-- Modelled from the spec: `cleanup(older_than)` -- deletes only jobs in a
terminal state whose `updated_at` is older than the cutoff, keeping every
other job unchanged and in order. -/
def cleanup (cutoff : Nat) : List Job → List Job
  | [] => []
  | j :: rest =>
    if j.status.isTerminal ∧ j.updated_at < cutoff then cleanup cutoff rest
    else j :: cleanup cutoff rest

/-- Modelled from the spec: removal of the row with a given primary key
from the job store. -/
def removeJob : List Job → String → List Job
  | [], _ => []
  | j :: rest, id => if j.job_id = id then rest else j :: removeJob rest id

/-- Modelled from the spec: outcome of `DELETE /jobs/{job_id}`. -/
inductive DeleteOutcome : Type where
  | deleted : DeleteOutcome
  | badRequest : DeleteOutcome
  | notFound : DeleteOutcome
deriving DecidableEq

/-- Modelled from the spec: HTTP status code of a delete outcome (`400`
when rejecting a non-terminal job, `404` for an unknown id). -/
def DeleteOutcome.httpStatus : DeleteOutcome → Nat
  | .deleted => 200
  | .badRequest => 400
  | .notFound => 404

/-- Modelled from the spec: the `DELETE /jobs/{job_id}` endpoint -- an
unknown id is a 404 and deletes nothing; a job in a non-terminal state is
rejected with 400 and the store is unchanged; only a completed or failed
job is actually removed. -/
def deleteJob (jobs : List Job) (id : String) : DeleteOutcome × List Job :=
  match jobs.find? (fun j => j.job_id == id) with
  | none => (.notFound, jobs)
  | some j =>
    if j.status.isTerminal then (.deleted, removeJob jobs id)
    else (.badRequest, jobs)

/-! ## ServiceRegistry snapshots and reloads (spec sections 4.1 and 5;
backend implementation missing from the source tree) -/

/-- Modelled from the spec: a whole registry snapshot -- for each tenant,
its immutable list of configured services. -/
def TenantSnapshot : Type := List (String × List ServiceConfig)

/-- Modelled from the spec: lookup of a tenant's service list in a
snapshot. -/
def lookupTenant : TenantSnapshot → String → Option (List ServiceConfig)
  | [], _ => none
  | (t', cfg) :: rest, t => if t' = t then some cfg else lookupTenant rest t

/-- Modelled from the spec: `resolve(tenant_id, service_name)` against one
snapshot -- the base URL of the tenant's service, when configured. -/
def resolveTenantService (snap : TenantSnapshot) (t s : String) : Option String :=
  (lookupTenant snap t).bind (fun services => (lookupService services s).map (fun c => c.base_url))

/-- Modelled from the spec: events observed by the registry.  A `read` is a
`resolve` call; a `reload` publishes a tenant's whole new immutable service
list in one atomic step (the copy-on-write pointer swap of the design). -/
inductive RegistryEvent : Type where
  | read : String → String → RegistryEvent
  | reload : String → List ServiceConfig → RegistryEvent

/-- Modelled from the spec: whether an event is a read. -/
def RegistryEvent.isRead : RegistryEvent → Bool
  | .read _ _ => true
  | .reload _ _ => false

/-- Modelled from the spec: replacement of one tenant's whole service list
in a snapshot (appending the tenant when new). -/
def setTenant : TenantSnapshot → String → List ServiceConfig → TenantSnapshot
  | [], t, cfg => [(t, cfg)]
  | (t', c') :: rest, t, cfg =>
    if t' = t then (t, cfg) :: rest else (t', c') :: setTenant rest t cfg

/-- Modelled from the spec: effect of one registry event on the published
snapshot: reads leave it untouched, a reload swaps in the tenant's new
service list atomically. -/
def applyEvent (snap : TenantSnapshot) : RegistryEvent → TenantSnapshot
  | .read _ _ => snap
  | .reload t cfg => setTenant snap t cfg

/-- Modelled from the spec: the snapshot after a sequence of registry
events. -/
def runEvents (snap : TenantSnapshot) (es : List RegistryEvent) : TenantSnapshot :=
  es.foldl applyEvent snap

/-! ## Helper lemmas -/

/-- Helper: the Boolean prefix test agrees with the prefix relation. -/
theorem startsWithChars_iff (p : List Char) : ∀ l, startsWithChars p l = true ↔ p <+: l := by
  induction p with
  | nil => intro l; simp [startsWithChars]
  | cons a as ih =>
    intro l
    cases l with
    | nil => simp [startsWithChars]
    | cons b bs =>
      by_cases hab : a = b <;> simp [startsWithChars, hab, List.cons_prefix_cons, ih]

/-- Helper: a line produces no validation message exactly when the
implemented line predicate is false, for any line index. -/
theorem lineErrors_eq_nil (i : Nat) (l : List Char) :
    lineErrors i l = [] ↔ actualErrorLine l = false := by
  unfold lineErrors actualErrorLine claimedErrorLine
  by_cases h1 : trimChars l = []
  · simp [h1]
  · by_cases h2 : tabStart l <;> by_cases h3 : oddSingle l <;> by_cases h4 : oddDouble l <;>
      simp [h1, h2, h3, h4]

/-- Helper: the validation loop reports nothing exactly when no line
satisfies the implemented line predicate, for any starting index. -/
theorem validateLines_eq_nil (i : Nat) (ls : List (List Char)) :
    validateLines i ls = [] ↔ ∀ l ∈ ls, actualErrorLine l = false := by
  induction ls generalizing i with
  | nil => simp [validateLines]
  | cons l rest ih =>
    simp only [validateLines, List.append_eq_nil, List.mem_cons]
    rw [lineErrors_eq_nil i l, ih (i + 1)]
    constructor
    · rintro ⟨h1, h2⟩ x hx
      rcases hx with hx | hx
      · rw [hx]; exact h1
      · exact h2 x hx
    · intro h
      exact ⟨h l (Or.inl rfl), fun x hx => h x (Or.inr hx)⟩

/-- Helper: the fueled JavaScript global-match scan for the pattern
"- name:" agrees with the plain occurrence count whenever the fuel covers
the scanned list; the pattern cannot overlap itself, so non-overlapping
counting makes no difference. -/
theorem jsMatchCountAux_toolPat (fuel : Nat) :
    ∀ s : List Char, s.length ≤ fuel →
      jsMatchCountAux "- name:".toList fuel s = occurrencesFrom "- name:".toList s := by
  induction fuel with
  | zero =>
    intro s hs
    cases s with
    | nil => rfl
    | cons c rest => simp at hs
  | succ fuel ih =>
    intro s hs
    cases s with
    | nil => rfl
    | cons c rest =>
      cases hp : startsWithChars "- name:".toList (c :: rest) with
      | false =>
        have hlen : rest.length ≤ fuel := by
          simp only [List.length_cons] at hs
          omega
        have hrec := ih rest hlen
        simp only [jsMatchCountAux, occurrencesFrom, hp, Bool.false_eq_true, if_false]
        omega
      | true =>
        obtain ⟨u, hu⟩ := (startsWithChars_iff _ _).mp hp
        have hu' : c :: rest = '-' :: ' ' :: 'n' :: 'a' :: 'm' :: 'e' :: ':' :: u := by
          rw [← hu]; rfl
        injection hu' with hc hrest
        subst hc
        subst hrest
        have hlen : u.length ≤ fuel := by
          simp only [List.length_cons] at hs
          omega
        have hrec := ih u hlen
        have e1 : jsMatchCountAux "- name:".toList (fuel + 1)
            ('-' :: ' ' :: 'n' :: 'a' :: 'm' :: 'e' :: ':' :: u) =
            1 + jsMatchCountAux "- name:".toList fuel u := rfl
        have e2 : occurrencesFrom "- name:".toList
            ('-' :: ' ' :: 'n' :: 'a' :: 'm' :: 'e' :: ':' :: u) =
            1 + (0 + (0 + (0 + (0 + (0 + (0 + occurrencesFrom "- name:".toList u)))))) := rfl
        rw [e1, e2]
        omega

/-- Helper: the reported tool count is the plain number of occurrences of
the substring "- name:" anywhere in the config. -/
theorem toolCount_eq_occurrences (config : String) :
    toolCount config = occurrencesFrom "- name:".toList config.toList := by
  unfold toolCount jsMatchCount
  have h : ("- name:".toList : List Char) ≠ [] := by decide
  rw [if_neg h]
  exact jsMatchCountAux_toolPat _ _ (Nat.le_refl _)

/-- Helper: for a non-empty config, the route either reports the validation
errors (when there are any) or succeeds carrying the tool count. -/
theorem postAgentsTest_cases (config : String) (h : config ≠ "") :
    (validateYamlStructure config ≠ [] ∧
      postAgentsTest config = .validationError (validateYamlStructure config)) ∨
    (validateYamlStructure config = [] ∧ postAgentsTest config = .ok (toolCount config)) := by
  unfold postAgentsTest
  rw [if_neg h]
  by_cases hv : validateYamlStructure config = []
  · right
    refine ⟨hv, ?_⟩
    simp [hv]
  · left
    refine ⟨hv, ?_⟩
    simp [List.length_pos.mpr hv]

/-- Claim C9: `detectType` is a total deterministic classification -- it returns
'table' exactly when the value is an array, 'json' exactly when the value
is a non-null, non-array object, and 'text' for every other value
(including null and undefined); and when the component's `type` prop is
'auto', the rendered branch is exactly `detectType data`. -/
theorem detectType_total_classification (v : JSValue) :
    (detectType v = .table ↔ ∃ xs, v = JSValue.arr xs) ∧
    (detectType v = .json ↔ ∃ fs, v = JSValue.obj fs) ∧
    (detectType v = .text ↔ (∀ xs, v ≠ JSValue.arr xs) ∧ (∀ fs, v ≠ JSValue.obj fs)) ∧
    renderTypeOf .auto v = detectType v := by
  refine ⟨?_, ?_, ?_, rfl⟩ <;>
    cases v <;> simp [detectType, JSValue.jsTypeof, JSValue.isArray, JSValue.isNotNull]

/-- Claim C10 counterexample: on the config consisting of one line holding only a
tab character, a line does begin with a tab, yet the route takes the
success branch, because the line is blank after `trim` and the loop skips
it -- the claimed equivalence fails as stated. -/
theorem postAgentsTest_tab_blank_line_counterexample :
    ¬ (isValidationFailure (postAgentsTest "\t") = true ↔
        ∃ l ∈ splitOnChar '\n' "\t".toList, claimedErrorLine l = true) := by
  decide

/-- Claim C10 (amended): for a non-empty config, the response is the 400
validation-error branch exactly when some line whose trimmed content is
non-empty begins with a tab or has an odd number of single or of double
quotes; and on the success branch the reported toolCount is the number of
occurrences of the substring "- name:" anywhere in the config. -/
theorem postAgentsTest_validation_characterization (config : String) (h : config ≠ "") :
    (isValidationFailure (postAgentsTest config) = true ↔
      ∃ l ∈ splitOnChar '\n' config.toList, actualErrorLine l = true) ∧
    (∀ n, postAgentsTest config = .ok n →
      n = occurrencesFrom "- name:".toList config.toList) := by
  have hiff : validateYamlStructure config = [] ↔
      ∀ l ∈ splitOnChar '\n' config.toList, actualErrorLine l = false :=
    validateLines_eq_nil 0 _
  constructor
  · rcases postAgentsTest_cases config h with ⟨hne, heq⟩ | ⟨hnil, heq⟩
    · rw [heq]
      simp only [isValidationFailure, true_iff]
      by_contra hno
      push_neg at hno
      exact hne (hiff.mpr (fun l hl => by
        cases hb : actualErrorLine l with
        | false => rfl
        | true => exact absurd hb (hno l hl)))
    · rw [heq]
      simp only [isValidationFailure, Bool.false_eq_true, false_iff]
      rintro ⟨l, hl, he⟩
      rw [hiff.mp hnil l hl] at he
      exact Bool.false_ne_true he
  · intro n hn
    rcases postAgentsTest_cases config h with ⟨hne, heq⟩ | ⟨hnil, heq⟩
    · rw [heq] at hn
      exact absurd hn (by simp)
    · rw [heq] at hn
      have : n = toolCount config := by
        injection hn.symm
      rw [this, toolCount_eq_occurrences]

/-- Claim C10 witness: the amended characterization applied to a concrete
two-tool config. -/
theorem postAgentsTest_validation_characterization_witness :
    (isValidationFailure (postAgentsTest "tools:\n  - name: a\n  - name: b") = true ↔
      ∃ l ∈ splitOnChar '\n' "tools:\n  - name: a\n  - name: b".toList,
        actualErrorLine l = true) ∧
    (∀ n, postAgentsTest "tools:\n  - name: a\n  - name: b" = .ok n →
      n = occurrencesFrom "- name:".toList "tools:\n  - name: a\n  - name: b".toList) :=
  postAgentsTest_validation_characterization "tools:\n  - name: a\n  - name: b" (by decide)

/-- Claim C3: extraction tries its strategies in a fixed order, first success
wins: a given `response_path` is navigated first; else the conventional
fields `result`, `summary`, `content` are probed in that order on a JSON
object body; else a bare JSON string/scalar is returned directly; else a
non-JSON body is returned as raw text, not as an error.  In particular,
`response_path` "result.summary" on the body with result.summary "ok"
extracts "ok", and the body with only a content field and no
`response_path` extracts that field. -/
theorem extract_fixed_strategy_order (j : Json) (p : String) (v : Json)
    (fs : List (String × Json)) (s : String) :
    (navigatePath j (splitPath p) = some v → extract (.json j) (some p) = Except.ok v) ∧
    (navigatePath j (splitPath p) = none →
      extract (.json j) (some p) = extractNoPath (.json j)) ∧
    (∀ w, fs.lookup "result" = some w →
      extract (.json (.obj fs)) none = Except.ok w) ∧
    (∀ w, fs.lookup "result" = none → fs.lookup "summary" = some w →
      extract (.json (.obj fs)) none = Except.ok w) ∧
    (∀ w, fs.lookup "result" = none → fs.lookup "summary" = none →
      fs.lookup "content" = some w →
      extract (.json (.obj fs)) none = Except.ok w) ∧
    (extract (.json (.str s)) none = Except.ok (.str s)) ∧
    (s ≠ "" → extract (.text s) none = Except.ok (.str s)) ∧
    (extract (.json (.obj [("result", .obj [("summary", .str "ok")])]))
      (some "result.summary") = Except.ok (.str "ok")) ∧
    (extract (.json (.obj [("content", .str "hello")])) none = Except.ok (.str "hello")) := by
  refine ⟨?_, ?_, ?_, ?_, ?_, rfl, ?_, rfl, rfl⟩
  · intro hnav
    simp only [extract, hnav]
  · intro hnav
    simp only [extract, hnav]
  · intro w hw
    simp only [extract, extractNoPath, probeConventional, hw]
  · intro w hr hw
    simp only [extract, extractNoPath, probeConventional, hr, hw]
  · intro w hr hs2 hw
    simp only [extract, extractNoPath, probeConventional, hr, hs2, hw]
  · intro hs
    simp only [extract, extractNoPath]
    rw [if_neg hs]

/-- Claim C3 witness: the strategy order applied to concrete bodies -- a
navigated path, a summary-field probe behind an absent result field, and a
plain-text body. -/
theorem extract_fixed_strategy_order_witness :
    extract (.json (.obj [("data", .str "d")])) (some "data") = Except.ok (.str "d") ∧
    extract (.json (.obj [("summary", .str "s")])) none = Except.ok (.str "s") ∧
    extract (.text "plain") none = Except.ok (.str "plain") := by
  obtain ⟨h1, h2, h3, h4, h5, h6, h7, h8, h9⟩ :=
    extract_fixed_strategy_order (.obj [("data", .str "d")]) "data" (.str "d")
      [("summary", .str "s")] "plain"
  exact ⟨h1 rfl, h4 (.str "s") rfl rfl, h7 (by decide)⟩

/-- Claim C4: job status is monotone along the chain and one-directional into a
terminal state -- a terminal job rejects every transition as a no-op (also
over whole sequences of calls), the rank along the chain never decreases,
`failed` is entered only from a non-terminal state, setting the same
terminal state twice is idempotent, and every real state change moves
strictly forward from a non-terminal state. -/
theorem job_status_transitions_monotonic (cur new s : JobStatus) (calls : List JobStatus) :
    (cur.isTerminal = true → transition cur new = cur) ∧
    (s.isTerminal = true → runTransitions s calls = s) ∧
    (cur.rank ≤ (transition cur new).rank) ∧
    (s.rank ≤ (runTransitions s calls).rank) ∧
    (transition cur new = .failed → cur = .failed ∨
      (cur.isTerminal = false ∧ new = .failed)) ∧
    (transition .completed .completed = .completed ∧
      transition .failed .failed = .failed) ∧
    (transition cur new ≠ cur →
      cur.isTerminal = false ∧ cur.rank < (transition cur new).rank) := by
  refine ⟨?_, ?_, ?_, ?_, ?_, ⟨rfl, rfl⟩, ?_⟩
  · intro h
    unfold transition
    rw [h]
    rfl
  · intro h
    induction calls with
    | nil => rfl
    | cons c cs ih =>
      show runTransitions (transition s c) cs = s
      have hst : transition s c = s := by
        unfold transition
        rw [h]
        rfl
      rw [hst]
      exact ih
  · cases cur <;> cases new <;> decide
  · induction calls generalizing s with
    | nil => exact Nat.le_refl _
    | cons c cs ih =>
      have h1 : s.rank ≤ (transition s c).rank := by
        cases s <;> cases c <;> decide
      exact Nat.le_trans h1 (ih (transition s c))
  · cases cur <;> cases new <;> decide
  · cases cur <;> cases new <;> decide

/-- Claim C4 witness: a completed job absorbs a whole sequence of further
transition requests unchanged. -/
theorem job_status_transitions_monotonic_witness :
    runTransitions .completed [.running, .failed, .processing] = .completed :=
  (job_status_transitions_monotonic .created .created .completed
    [.running, .failed, .processing]).2.1 rfl

/-- Claim C5: `cleanup(older_than)` keeps the survivors unchanged and in order
(a sublist of the original store), removes exactly the jobs that are both
terminal and older than the cutoff, and never touches a running or
processing job regardless of its age. -/
theorem cleanup_deletes_exactly_old_terminal (cutoff : Nat) (jobs : List Job) :
    (cleanup cutoff jobs).Sublist jobs ∧
    (∀ j, j ∈ cleanup cutoff jobs ↔
      j ∈ jobs ∧ ¬(j.status.isTerminal = true ∧ j.updated_at < cutoff)) ∧
    (∀ j, j ∈ jobs → (j.status = .running ∨ j.status = .processing) →
      j ∈ cleanup cutoff jobs) := by
  refine ⟨?_, ?_, ?_⟩
  · induction jobs with
    | nil => exact List.Sublist.refl _
    | cons j rest ih =>
      unfold cleanup
      by_cases h : j.status.isTerminal = true ∧ j.updated_at < cutoff
      · rw [if_pos h]
        exact List.Sublist.cons j ih
      · rw [if_neg h]
        exact List.Sublist.cons₂ j ih
  · intro j
    induction jobs with
    | nil => simp [cleanup]
    | cons k rest ih =>
      unfold cleanup
      by_cases h : k.status.isTerminal = true ∧ k.updated_at < cutoff
      · rw [if_pos h]
        rw [ih]
        constructor
        · rintro ⟨hj, hn⟩
          exact ⟨List.mem_cons_of_mem k hj, hn⟩
        · rintro ⟨hj, hn⟩
          rcases List.mem_cons.mp hj with hj | hj
          · rw [hj] at hn
            exact absurd h hn
          · exact ⟨hj, hn⟩
      · rw [if_neg h]
        rw [List.mem_cons, ih, List.mem_cons]
        constructor
        · rintro (hj | ⟨hj, hn⟩)
          · rw [hj]
            exact ⟨Or.inl rfl, h⟩
          · exact ⟨Or.inr hj, hn⟩
        · rintro ⟨hj | hj, hn⟩
          · exact Or.inl hj
          · exact Or.inr ⟨hj, hn⟩
  · intro j hj hrun
    have hn : ¬(j.status.isTerminal = true ∧ j.updated_at < cutoff) := by
      rcases hrun with hr | hr <;> rw [hr] <;> rintro ⟨hterm, _⟩ <;> exact absurd hterm (by decide)
    induction jobs with
    | nil => exact absurd hj (List.not_mem_nil j)
    | cons k rest ih =>
      unfold cleanup
      rcases List.mem_cons.mp hj with hk | hk
      · rw [← hk]
        rw [if_neg hn]
        exact List.mem_cons_self j _
      · by_cases h : k.status.isTerminal = true ∧ k.updated_at < cutoff
        · rw [if_pos h]
          exact ih hk
        · rw [if_neg h]
          exact List.mem_cons_of_mem k (ih hk)

/-- Claim C5 witness: a 40-days-old running job survives a 30-day cleanup that
does delete an equally old completed job. -/
theorem cleanup_deletes_exactly_old_terminal_witness :
    ({ job_id := "j1", request_type := "research", status := JobStatus.running,
       input_data := "q", result := none, error_message := none,
       created_at := 0, updated_at := 0 : Job }) ∈
      cleanup 30
        [{ job_id := "j1", request_type := "research", status := JobStatus.running,
           input_data := "q", result := none, error_message := none,
           created_at := 0, updated_at := 0 : Job },
         { job_id := "j2", request_type := "research", status := JobStatus.completed,
           input_data := "q", result := some "r", error_message := none,
           created_at := 0, updated_at := 0 : Job }] :=
  (cleanup_deletes_exactly_old_terminal 30 _).2.2 _ (by simp) (Or.inl rfl)

/-- Claim C7: `DELETE /jobs/{job_id}` is rejected with HTTP 400 and leaves the
store unchanged whenever the addressed job is in a non-terminal state; only
a completed or failed job is removed; an unknown id is a 404 and deletes
nothing; and any outcome other than a successful delete leaves the store
untouched. -/
theorem deleteJob_only_terminal (jobs : List Job) (id : String) :
    (∀ j, jobs.find? (fun k => k.job_id == id) = some j → j.status.isTerminal = false →
      deleteJob jobs id = (.badRequest, jobs) ∧
      DeleteOutcome.badRequest.httpStatus = 400) ∧
    (∀ j, jobs.find? (fun k => k.job_id == id) = some j → j.status.isTerminal = true →
      deleteJob jobs id = (.deleted, removeJob jobs id)) ∧
    (jobs.find? (fun k => k.job_id == id) = none →
      deleteJob jobs id = (.notFound, jobs) ∧
      DeleteOutcome.notFound.httpStatus = 404) ∧
    ((deleteJob jobs id).1 ≠ .deleted → (deleteJob jobs id).2 = jobs) := by
  refine ⟨?_, ?_, ?_, ?_⟩
  · intro j hf ht
    refine ⟨?_, rfl⟩
    simp [deleteJob, hf, ht]
  · intro j hf ht
    simp [deleteJob, hf, ht]
  · intro hf
    refine ⟨?_, rfl⟩
    simp [deleteJob, hf]
  · intro hne
    cases hf : jobs.find? (fun k => k.job_id == id) with
    | none => simp [deleteJob, hf]
    | some j =>
      cases ht : j.status.isTerminal with
      | false => simp [deleteJob, hf, ht]
      | true =>
        exact absurd (by simp [deleteJob, hf, ht] : (deleteJob jobs id).1 = .deleted) hne

/-- Claim C7 witness: deleting a running job is rejected with 400 and the store
is unchanged. -/
theorem deleteJob_only_terminal_witness :
    deleteJob
      [{ job_id := "a", request_type := "research", status := JobStatus.running,
         input_data := "q", result := none, error_message := none,
         created_at := 0, updated_at := 0 : Job }] "a" =
      (.badRequest,
        [{ job_id := "a", request_type := "research", status := JobStatus.running,
           input_data := "q", result := none, error_message := none,
           created_at := 0, updated_at := 0 : Job }]) ∧
    DeleteOutcome.badRequest.httpStatus = 400 :=
  (deleteJob_only_terminal _ "a").1 _ rfl rfl

/-- Helper: replacing a tenant's service list makes exactly that list
visible for the tenant. -/
theorem lookupTenant_setTenant_self (snap : TenantSnapshot) (t : String)
    (cfg : List ServiceConfig) :
    lookupTenant (setTenant snap t cfg) t = some cfg := by
  induction snap with
  | nil => simp [setTenant, lookupTenant]
  | cons p rest ih =>
    obtain ⟨t', c'⟩ := p
    by_cases h : t' = t
    · simp [setTenant, lookupTenant, h]
    · simp [setTenant, lookupTenant, h, ih]

/-- Helper: replacing one tenant's service list leaves every other tenant's
configuration untouched. -/
theorem lookupTenant_setTenant_other (snap : TenantSnapshot) (t u : String)
    (cfg : List ServiceConfig) (h : u ≠ t) :
    lookupTenant (setTenant snap t cfg) u = lookupTenant snap u := by
  have hne : ¬ t = u := fun he => h he.symm
  induction snap with
  | nil =>
    simp only [setTenant, lookupTenant]
    rw [if_neg hne]
  | cons p rest ih =>
    obtain ⟨t', c'⟩ := p
    by_cases ht : t' = t
    · subst ht
      have hset : setTenant ((t', c') :: rest) t' cfg = (t', cfg) :: rest := by
        simp [setTenant]
      rw [hset]
      simp only [lookupTenant]
      rw [if_neg hne, if_neg hne]
    · simp [setTenant, lookupTenant, ht, ih]

/-- Helper: a sequence of pure reads leaves the published snapshot
untouched. -/
theorem runEvents_reads_only (snap : TenantSnapshot) (es : List RegistryEvent)
    (h : ∀ e ∈ es, e.isRead = true) : runEvents snap es = snap := by
  induction es generalizing snap with
  | nil => rfl
  | cons e es ih =>
    have he := h e (List.mem_cons_self e es)
    have hstep : applyEvent snap e = snap := by
      cases e with
      | read t s => rfl
      | reload t cfg => exact absurd he (by simp [RegistryEvent.isRead])
    show runEvents (applyEvent snap e) es = snap
    rw [hstep]
    exact ih snap (fun e' he' => h e' (List.mem_cons_of_mem e he'))

/-- Helper: after any event sequence, a tenant's visible configuration is
either its original one or exactly one of the reloaded lists -- never a
mixture. -/
theorem runEvents_lookup_cases (es : List RegistryEvent) :
    ∀ (snap : TenantSnapshot) (t : String),
      lookupTenant (runEvents snap es) t = lookupTenant snap t ∨
      ∃ c, RegistryEvent.reload t c ∈ es ∧ lookupTenant (runEvents snap es) t = some c := by
  induction es with
  | nil =>
    intro snap t
    left
    rfl
  | cons e es ih =>
    intro snap t
    have hshow : runEvents snap (e :: es) = runEvents (applyEvent snap e) es := rfl
    rw [hshow]
    rcases ih (applyEvent snap e) t with h | ⟨c, hc, hl⟩
    · cases e with
      | read a b =>
        left
        exact h
      | reload u cfg =>
        by_cases ht : u = t
        · subst ht
          right
          refine ⟨cfg, List.mem_cons_self _ _, ?_⟩
          rw [h]
          exact lookupTenant_setTenant_self snap u cfg
        · left
          rw [h]
          exact lookupTenant_setTenant_other snap u t cfg (fun he => ht he.symm)
    · right
      exact ⟨c, List.mem_cons_of_mem e hc, hl⟩

/-- Claim C8: between reloads, repeated `resolve(t, s)` calls observe the same
snapshot and return identical values; a reload publishes one tenant's whole
new immutable service list in one atomic step, leaving all other tenants
untouched, and after any event sequence every tenant's visible
configuration is either its original list or exactly one reloaded list --
no read ever observes a partially built or mixed configuration. -/
theorem registry_deterministic_and_atomic (snap : TenantSnapshot)
    (es : List RegistryEvent) (t s u : String) (cfg : List ServiceConfig) :
    ((∀ e ∈ es, e.isRead = true) →
      resolveTenantService (runEvents snap es) t s = resolveTenantService snap t s) ∧
    (lookupTenant (applyEvent snap (.reload t cfg)) t = some cfg) ∧
    (u ≠ t → lookupTenant (applyEvent snap (.reload t cfg)) u = lookupTenant snap u) ∧
    (lookupTenant (runEvents snap es) t = lookupTenant snap t ∨
      ∃ c, RegistryEvent.reload t c ∈ es ∧ lookupTenant (runEvents snap es) t = some c) := by
  refine ⟨?_, ?_, ?_, ?_⟩
  · intro h
    rw [runEvents_reads_only snap es h]
  · exact lookupTenant_setTenant_self snap t cfg
  · intro hu
    exact lookupTenant_setTenant_other snap t u cfg hu
  · exact runEvents_lookup_cases es snap t

/-- Claim C8 witness: two reads around a pure-read window observe the same value,
and a reload publishes the whole new list for tenant `acme` atomically. -/
theorem registry_deterministic_and_atomic_witness :
    (resolveTenantService
        (runEvents [("acme", [ServiceConfig.mk "research" "https://api.acme.com/research" "/health" 30 true])]
          [.read "acme" "research", .read "acme" "research"])
        "acme" "research" =
      resolveTenantService
        [("acme", [ServiceConfig.mk "research" "https://api.acme.com/research" "/health" 30 true])]
        "acme" "research") ∧
    lookupTenant
        (applyEvent
          [("acme", [ServiceConfig.mk "research" "https://api.acme.com/research" "/health" 30 true])]
          (.reload "acme" [])) "acme" = some [] := by
  have h := registry_deterministic_and_atomic
    [("acme", [ServiceConfig.mk "research" "https://api.acme.com/research" "/health" 30 true])]
    [.read "acme" "research", .read "acme" "research"] "acme" "research" "other" []
  exact ⟨h.1 (by intro e he; fin_cases he <;> rfl), h.2.1⟩

/-- Claim C1: URL resolution is a total function evaluating its four rules top to
bottom with the first match winning -- an absolute `https://` URL is used
verbatim and wins regardless of the configured services and environment;
otherwise a `service://` reference is resolved against the tenant's
services; otherwise a URL containing a placeholder goes through environment
substitution; otherwise the URL is the literal result. -/
theorem resolveUrl_precedence (services services' : List ServiceConfig)
    (env env' : List (String × String)) (url name path : String) :
    (startsWithChars "https://".toList url.toList = true →
      resolveUrl services env url = Except.ok url ∧
      resolveUrl services env url = resolveUrl services' env' url) ∧
    (isAbsoluteUrl url = false → parseServiceRef url = some (name, path) →
      resolveUrl services env url =
        (match lookupService services name with
         | some cfg => Except.ok (cfg.base_url ++ path)
         | none => Except.error (.notConfigured name))) ∧
    (isAbsoluteUrl url = false → parseServiceRef url = none →
      hasEnvPlaceholder url = true →
      resolveUrl services env url = (substEnvVars env url.toList).map String.mk) ∧
    (isAbsoluteUrl url = false → parseServiceRef url = none →
      hasEnvPlaceholder url = false →
      resolveUrl services env url = Except.ok url) := by
  refine ⟨?_, ?_, ?_, ?_⟩
  · intro h
    have habs : isAbsoluteUrl url = true := by
      unfold isAbsoluteUrl
      rw [h]
      rfl
    constructor <;> simp [resolveUrl, habs]
  · intro habs hp
    simp [resolveUrl, habs, hp]
  · intro habs hp he
    simp [resolveUrl, habs, hp, he]
  · intro habs hp he
    simp [resolveUrl, habs, hp, he]

/-- Claim C1 witness: an absolute URL resolves verbatim even with a conflicting
service configured under the same name, and a literal URL resolves to
itself. -/
theorem resolveUrl_precedence_witness :
    (resolveUrl [ServiceConfig.mk "x" "https://other" "/health" 30 true] [] "https://a.example/x" =
        Except.ok "https://a.example/x" ∧
      resolveUrl [ServiceConfig.mk "x" "https://other" "/health" 30 true] [] "https://a.example/x" =
        resolveUrl [] [("V", "w")] "https://a.example/x") ∧
    resolveUrl [] [] "plain-literal" = Except.ok "plain-literal" := by
  have h1 := resolveUrl_precedence [ServiceConfig.mk "x" "https://other" "/health" 30 true]
    [] [] [("V", "w")] "https://a.example/x" "n" "p"
  have h2 := resolveUrl_precedence [] [] [] [] "plain-literal" "n" "p"
  exact ⟨h1.1 rfl, h2.2.2.2 rfl rfl rfl⟩

/-- Helper: a parameter list that misses a required parameter or binds one
to a value of the wrong JSON type yields a non-empty validation error
list. -/
theorem validateParams_ne_nil (schema : List ParamSpec) (params : List (String × Json))
    (h : ∃ ps ∈ schema,
      (ps.required = true ∧ params.lookup ps.name = none) ∨
      (∃ v, params.lookup ps.name = some v ∧ v.typeName ≠ ps.ty)) :
    validateParams schema params ≠ [] := by
  obtain ⟨ps, hmem, hcase⟩ := h
  intro hnil
  unfold validateParams at hnil
  rw [List.flatten_eq_nil_iff] at hnil
  have hf := hnil _ (List.mem_map_of_mem _ hmem)
  rcases hcase with ⟨hreq, hlook⟩ | ⟨v, hlook, hty⟩
  · simp only [hlook, hreq] at hf
    simp at hf
  · simp only [hlook] at hf
    rw [if_pos hty] at hf
    simp at hf

/-- Claim C2: a dispatch whose parameters miss a required parameter or carry a
value of the wrong type fails immediately with a (non-empty)
`validationError`, and the list of HTTP requests issued is empty -- zero
network calls are observable before the validation result is returned. -/
theorem dispatch_validation_short_circuit (services : List ServiceConfig)
    (env : List (String × String)) (tools : List ToolDefinition)
    (http : HttpRequest → Option HttpResponse) (tool_name : String)
    (tool : ToolDefinition) (params : List (String × Json))
    (hfind : tools.find? (fun td => td.name == tool_name) = some tool)
    (hbad : ∃ ps ∈ tool.parameters,
      (ps.required = true ∧ params.lookup ps.name = none) ∨
      (∃ v, params.lookup ps.name = some v ∧ v.typeName ≠ ps.ty)) :
    ∃ errs, errs ≠ [] ∧
      dispatch services env tools http tool_name params = (.validationError errs, []) := by
  have hv : validateParams tool.parameters params ≠ [] :=
    validateParams_ne_nil tool.parameters params hbad
  refine ⟨validateParams tool.parameters params, hv, ?_⟩
  have hemp : (validateParams tool.parameters params).isEmpty = false := by
    cases hvv : validateParams tool.parameters params with
    | nil => exact absurd hvv hv
    | cons a l => rfl
  simp [dispatch, hfind, hemp]

/-- Claim C2 witness: dispatching a tool that requires a string parameter with an
empty parameter map returns a validation error and performs zero HTTP
calls. -/
theorem dispatch_validation_short_circuit_witness :
    ∃ errs, errs ≠ [] ∧
      dispatch [] [] [ToolDefinition.mk "t" [ParamSpec.mk "q" "string" true] "POST" "https://x/y" none none]
        (fun _ => some (HttpResponse.mk 200 (.text "unreachable"))) "t" [] =
      (.validationError errs, []) :=
  dispatch_validation_short_circuit [] [] _ _ "t" _ []
    rfl ⟨ParamSpec.mk "q" "string" true, by simp, Or.inl ⟨rfl, rfl⟩⟩

/-- Helper: a list is a prefix of itself followed by anything. -/
theorem startsWithChars_append_self (p u : List Char) : startsWithChars p (p ++ u) = true := by
  induction p with
  | nil => rfl
  | cons a as ih => simp [startsWithChars, ih]

/-- Helper: scanning characters that all satisfy the predicate up to the
first one that does not splits the list there. -/
theorem takeWhile_append_stop (p : Char → Bool) (xs : List Char) (y : Char)
    (ys : List Char) (hxs : ∀ x ∈ xs, p x = true) (hy : p y = false) :
    (xs ++ y :: ys).takeWhile p = xs ∧ (xs ++ y :: ys).dropWhile p = y :: ys := by
  induction xs with
  | nil =>
    constructor
    · simp [List.takeWhile_cons, hy]
    · simp [List.dropWhile_cons, hy]
  | cons x xs ih =>
    have hx := hxs x (List.mem_cons_self x xs)
    have ihh := ih (fun a ha => hxs a (List.mem_cons_of_mem x ha))
    constructor
    · simp only [List.cons_append, List.takeWhile_cons, hx]
      rw [ihh.1]
      simp
    · simp only [List.cons_append, List.dropWhile_cons, hx]
      rw [ihh.2]
      simp

/-- Helper: parsing `service://<name>/<path>` recovers the name (which
holds no slash) and the slash-prefixed path. -/
theorem parseServiceRef_parts (name path : String)
    (hname : ∀ c ∈ name.toList, c ≠ '/') :
    parseServiceRef ("service://" ++ name ++ "/" ++ path) = some (name, "/" ++ path) := by
  have hdata : ("service://" ++ name ++ "/" ++ path).toList =
      "service://".toList ++ (name.toList ++ '/' :: path.toList) := by
    simp [String.toList]
  have hxs : ∀ x ∈ name.toList, (fun c => c ≠ '/' : Char → Bool) x = true := by
    intro x hx
    simpa using hname x hx
  have hy : (fun c => c ≠ '/' : Char → Bool) '/' = false := by decide
  have hsplit := takeWhile_append_stop _ name.toList '/' path.toList hxs hy
  unfold parseServiceRef
  rw [hdata, startsWithChars_append_self]
  rw [if_pos rfl]
  rw [show (10 : Nat) = ("service://".toList).length from rfl, List.drop_left]
  simp only [hsplit.1, hsplit.2]
  rfl

/-- Helper: the `service://` form is never taken for an absolute URL. -/
theorem serviceUrl_not_absolute (name path : String) :
    isAbsoluteUrl ("service://" ++ name ++ "/" ++ path) = false := by
  have hdata : ("service://" ++ name ++ "/" ++ path).toList =
      "service://".toList ++ (name.toList ++ '/' :: path.toList) := by
    simp [String.toList]
  unfold isAbsoluteUrl
  rw [hdata]
  rfl

/-- Claim C6: a `service://<name>/<path>` action URL resolves, for a tenant with
`<name>` configured, to the configured base URL concatenated with the
slash-prefixed path; with `<name>` not configured it fails with
`ConfigurationError` whose message is `service not configured: <name>`,
and a dispatch reaching that resolution failure issues zero HTTP
requests. -/
theorem service_url_resolution (services : List ServiceConfig)
    (env : List (String × String)) (name path : String) (cfg : ServiceConfig)
    (hname : ∀ c ∈ name.toList, c ≠ '/') :
    (lookupService services name = some cfg →
      resolveUrl services env ("service://" ++ name ++ "/" ++ path) =
        Except.ok (cfg.base_url ++ "/" ++ path)) ∧
    (lookupService services name = none →
      resolveUrl services env ("service://" ++ name ++ "/" ++ path) =
        Except.error (.notConfigured name) ∧
      (ConfigurationError.notConfigured name).message =
        "service not configured: " ++ name) ∧
    (∀ (tools : List ToolDefinition) (http : HttpRequest → Option HttpResponse)
        (tool_name : String) (tool : ToolDefinition) (params : List (String × Json)),
      lookupService services name = none →
      tools.find? (fun td => td.name == tool_name) = some tool →
      validateParams tool.parameters params = [] →
      tool.url = "service://" ++ name ++ "/" ++ path →
      dispatch services env tools http tool_name params =
        (.configurationError (.notConfigured name), [])) := by
  have habs := serviceUrl_not_absolute name path
  have hparse := parseServiceRef_parts name path hname
  refine ⟨?_, ?_, ?_⟩
  · intro hcfg
    simp only [resolveUrl, habs, Bool.false_eq_true, if_false, hparse, hcfg]
    rw [← String.append_assoc]
  · intro hcfg
    refine ⟨?_, rfl⟩
    simp only [resolveUrl, habs, Bool.false_eq_true, if_false, hparse, hcfg]
  · intro tools http tool_name tool params hcfg hfind hval hurl
    have hres : resolveUrl services env tool.url = Except.error (.notConfigured name) := by
      rw [hurl]
      simp only [resolveUrl, habs, Bool.false_eq_true, if_false, hparse, hcfg]
    have hemp : (validateParams tool.parameters params).isEmpty = true := by
      rw [hval]
      rfl
    simp [dispatch, hfind, hemp, hres]

/-- Claim C6 witness: tenant services with `research` mapped to
`https://api.acme.com/research` resolve `service://research/search` to
`https://api.acme.com/research/search`, and an unconfigured name fails
with the documented message. -/
theorem service_url_resolution_witness :
    (resolveUrl [ServiceConfig.mk "research" "https://api.acme.com/research" "/health" 30 true]
        [] ("service://" ++ "research" ++ "/" ++ "search") =
      Except.ok ("https://api.acme.com/research" ++ "/" ++ "search")) ∧
    (resolveUrl [] [] ("service://" ++ "research" ++ "/" ++ "search") =
        Except.error (.notConfigured "research") ∧
      (ConfigurationError.notConfigured "research").message =
        "service not configured: " ++ "research") := by
  have h1 := service_url_resolution
    [ServiceConfig.mk "research" "https://api.acme.com/research" "/health" 30 true]
    [] "research" "search"
    (ServiceConfig.mk "research" "https://api.acme.com/research" "/health" 30 true)
    (by decide)
  have h2 := service_url_resolution [] [] "research" "search"
    (ServiceConfig.mk "research" "https://api.acme.com/research" "/health" 30 true)
    (by decide)
  exact ⟨h1.1 rfl, h2.2.1 rfl⟩
